import Mathlib

/-!
Verification development for `Sources/_CJavaScriptEventLoop/include/swift/Runtime/Atomic.h`,
the explicit-ordering atomic cell used by the Swift runtime: the generic
`atomic_impl` wrapper over `std::atomic`, and the double-pointer-width
specialization that issues `_InterlockedCompareExchange128` directly.

The embedding gives single-threaded value semantics: a cell is its stored
value, memory orders are carried as data (they select instruction variants
and are checked by the debug assertions, but impose no further value-level
effect in a single-threaded execution), and the `assert` calls of debug
builds are modelled by `Option`-valued operations (`none` = assertion fired).
-/

namespace Swift

/-- `std::memory_order`. -/
inductive memory_order where
  | relaxed
  | consume
  | acquire
  | release
  | acq_rel
  | seq_cst
deriving DecidableEq, Repr, Fintype

/-- A double-pointer-width (16-byte on Win64) value, as its two `__int64`
halves, the shape in which `_InterlockedCompareExchange128` consumes and
produces it (`__int64 resultArray[2]`). Only bitwise equality is ever used. -/
structure Int64Pair where
  lo : Nat
  hi : Nat
deriving DecidableEq, Repr

/-- `_InterlockedCompareExchange128(Destination, ExchangeHigh, ExchangeLow,
ComparandResult)`: compares the 128-bit `*Destination` with
`*ComparandResult`; on equality stores `ExchangeHigh:ExchangeLow` into the
destination and returns 1, otherwise leaves the destination unchanged and
returns 0; in both cases the destination's original contents are stored into
`ComparandResult`. Result triple: (returned flag, new destination contents,
contents written through `ComparandResult`). -/
def InterlockedCompareExchange128 (destination : Int64Pair)
    (exchangeHigh exchangeLow : Nat) (comparand : Int64Pair) :
    Bool × Int64Pair × Int64Pair :=
  if destination = comparand then
    (true, ⟨exchangeLow, exchangeHigh⟩, destination)
  else
    (false, destination, destination)

/-- `_InterlockedCompareExchange128_nf`: the no-fence variant. It differs
from the plain intrinsic only in the memory fences it emits, which have no
value-level effect; its value semantics coincide with the fully-fenced one. -/
def InterlockedCompareExchange128_nf (destination : Int64Pair)
    (exchangeHigh exchangeLow : Nat) (comparand : Int64Pair) :
    Bool × Int64Pair × Int64Pair :=
  InterlockedCompareExchange128 destination exchangeHigh exchangeLow comparand

/-- `_InterlockedCompareExchange128_acq`: the acquire-fenced variant. -/
def InterlockedCompareExchange128_acq (destination : Int64Pair)
    (exchangeHigh exchangeLow : Nat) (comparand : Int64Pair) :
    Bool × Int64Pair × Int64Pair :=
  InterlockedCompareExchange128 destination exchangeHigh exchangeLow comparand

/-- `_InterlockedCompareExchange128_rel`: the release-fenced variant. -/
def InterlockedCompareExchange128_rel (destination : Int64Pair)
    (exchangeHigh exchangeLow : Nat) (comparand : Int64Pair) :
    Bool × Int64Pair × Int64Pair :=
  InterlockedCompareExchange128 destination exchangeHigh exchangeLow comparand

/-- The generic `template <class Value, size_t Size> class atomic_impl`,
which wraps a `std::atomic<Value> value` member. -/
structure atomic_impl (Value : Type) where
  value : Value
deriving DecidableEq, Repr

/-- Generic `atomic_impl::load(order)`: `return value.load(order);` —
forwards to `std::atomic::load` with no assertion of its own, so it returns
normally (`some`) for every ordering in this code. -/
def atomic_impl.load {Value : Type} (cell : atomic_impl Value)
    (order : memory_order) : Option Value :=
  some cell.value

/-- Generic `atomic_impl::compare_exchange_weak(oldValue, newValue,
successOrder, failureOrder)`: forwards to
`std::atomic::compare_exchange_weak`. Single-threaded value semantics of the
std primitive: if the cell equals `oldValue`, store `newValue` and return
true leaving `oldValue` unchanged; otherwise load the cell's current value
into `oldValue` and return false. (The weak form may additionally fail
spuriously under contention; a deterministic single-threaded execution has
none.) Result: (returned flag, `oldValue` after the call, cell after). -/
def atomic_impl.compare_exchange_weak {Value : Type} [DecidableEq Value]
    (cell : atomic_impl Value) (oldValue newValue : Value)
    (successOrder failureOrder : memory_order) :
    Bool × Value × atomic_impl Value :=
  if cell.value = oldValue then
    (true, oldValue, ⟨newValue⟩)
  else
    (false, cell.value, cell)

/-- The assertion at the head of the wide specialization's `load`:
`order == relaxed || order == acquire || order == consume`. -/
def wide_load_assert (order : memory_order) : Bool :=
  order = memory_order.relaxed || order = memory_order.acquire ||
    order = memory_order.consume

/-- The two assertions at the head of the wide specialization's
`compare_exchange_weak`: `failureOrder ∈ {relaxed, acquire, consume}` and
`successOrder ∈ {relaxed, release}`. -/
def wide_cas_assert (successOrder failureOrder : memory_order) : Bool :=
  (failureOrder = memory_order.relaxed || failureOrder = memory_order.acquire ||
    failureOrder = memory_order.consume) &&
  (successOrder = memory_order.relaxed || successOrder = memory_order.release)

/-- The four `_InterlockedCompareExchange128*` instruction variants the wide
`compare_exchange_weak` chooses among. -/
inductive CasVariant where
  | nf
  | acq
  | rel
  | full
deriving DecidableEq, Repr

/-- The `#if SWIFT_HAS_MSVC_ARM_ATOMICS` / `if` cascade of the wide
`compare_exchange_weak`: with the ARM intrinsics available, pick `_nf` when
`successOrder == relaxed && failureOrder != acquire`, `_acq` when only
`successOrder == relaxed`, `_rel` when only `failureOrder != acquire`, and
the plain (fully-fenced) intrinsic otherwise; without them (the macro is 0,
e.g. on x64), only the plain intrinsic is compiled in. -/
def wide_cas_variant (hasMsvcArmAtomics : Bool)
    (successOrder failureOrder : memory_order) : CasVariant :=
  if hasMsvcArmAtomics then
    if successOrder = memory_order.relaxed &&
        !(failureOrder = memory_order.acquire) then
      CasVariant.nf
    else if successOrder = memory_order.relaxed then
      CasVariant.acq
    else if !(failureOrder = memory_order.acquire) then
      CasVariant.rel
    else
      CasVariant.full
  else
    CasVariant.full

/-- Dispatch a chosen variant to its intrinsic. -/
def run_cas_variant : CasVariant → Int64Pair → Nat → Nat → Int64Pair →
    Bool × Int64Pair × Int64Pair
  | CasVariant.nf => InterlockedCompareExchange128_nf
  | CasVariant.acq => InterlockedCompareExchange128_acq
  | CasVariant.rel => InterlockedCompareExchange128_rel
  | CasVariant.full => InterlockedCompareExchange128

/-- The `_WIN64` specialization
`atomic_impl<Value, 2*sizeof(void*)>`, holding a `volatile Value
atomicValue` and bypassing `std::atomic`. -/
structure atomic_impl_wide where
  atomicValue : Int64Pair
deriving DecidableEq, Repr

/-- Wide `load(order)`: asserts the ordering, then issues a compare-exchange
of the cell against the zero-initialized `resultArray` (comparand 0 and
exchange values 0), discarding the returned flag and returning
`resultArray`, i.e. the destination's prior contents. Under
`SWIFT_HAS_MSVC_ARM_ATOMICS`, non-acquire orders use the `_nf` variant.
Result: `none` if the assertion fires, otherwise (loaded value, cell after). -/
def atomic_impl_wide.load (hasMsvcArmAtomics : Bool)
    (cell : atomic_impl_wide) (order : memory_order) :
    Option (Int64Pair × atomic_impl_wide) :=
  if wide_load_assert order then
    let resultArray : Int64Pair := ⟨0, 0⟩
    if hasMsvcArmAtomics && !(order = memory_order.acquire) then
      let r := InterlockedCompareExchange128_nf cell.atomicValue 0 0 resultArray
      some (r.2.2, ⟨r.2.1⟩)
    else
      let r := InterlockedCompareExchange128 cell.atomicValue 0 0 resultArray
      some (r.2.2, ⟨r.2.1⟩)
  else
    none

/-- Wide `compare_exchange_weak(oldValue, newValue, successOrder,
failureOrder)`: asserts the ordering pair, selects the instruction variant
per `wide_cas_variant`, and issues it with the exchange halves
`newValue[1]`/`newValue[0]` and `oldValue` as `ComparandResult`. Result:
`none` if an assertion fires, otherwise (returned flag, `oldValue` after the
call, cell after). -/
def atomic_impl_wide.compare_exchange_weak (hasMsvcArmAtomics : Bool)
    (cell : atomic_impl_wide) (oldValue newValue : Int64Pair)
    (successOrder failureOrder : memory_order) :
    Option (Bool × Int64Pair × atomic_impl_wide) :=
  if wide_cas_assert successOrder failureOrder then
    let r := run_cas_variant
      (wide_cas_variant hasMsvcArmAtomics successOrder failureOrder)
      cell.atomicValue newValue.hi newValue.lo oldValue
    some (r.1, r.2.2, ⟨r.2.1⟩)
  else
    none

/-- Static copy-control facts of a C++ class: whether its copy constructor
and copy assignment are explicitly `= delete`, and whether all its non-static
data members are copyable (a non-copyable member makes the implicitly
declared copy operations defined as deleted). -/
structure CxxCopyControl where
  copyOperationsDeleted : Bool
  memberTypesCopyable : Bool
deriving DecidableEq, Repr

/-- Per the C++ rule: a class is copyable only if its copy operations are
not deleted and all its members are copyable. -/
def CxxCopyControl.copyable (c : CxxCopyControl) : Bool :=
  !c.copyOperationsDeleted && c.memberTypesCopyable

/-- Copy control of the generic `atomic_impl`: it declares no copy
operations of its own (none are `= delete` in its body), but its only data
member is `std::atomic<Value> value`, whose copy constructor and copy
assignment are deleted by the C++ standard library, so the implicit copy
operations of `atomic_impl` are defined as deleted. -/
def atomic_impl_copy_control : CxxCopyControl :=
  { copyOperationsDeleted := false, memberTypesCopyable := false }

/-- Copy control of the wide specialization: `atomic_impl(const atomic_impl &)
= delete;` and `atomic_impl &operator=(const atomic_impl &) = delete;`; its
member `volatile Value atomicValue` is an ordinary copyable datum. -/
def atomic_impl_wide_copy_control : CxxCopyControl :=
  { copyOperationsDeleted := true, memberTypesCopyable := true }

/-- The sequence of operations a deterministic single-threaded client issues
against a cell. -/
inductive AtomicOp where
  | load (order : memory_order)
  | cas (expected desired : Int64Pair) (successOrder failureOrder : memory_order)
deriving DecidableEq, Repr

/-- The caller-observable outcome of one operation: the loaded value, or the
returned success flag together with the value left in `expected_in_out`. -/
inductive AtomicOpResult where
  | loaded (value : Int64Pair)
  | exchanged (success : Bool) (expectedOut : Int64Pair)
deriving DecidableEq, Repr

/-- An operation whose orderings are legal for both strategies, i.e. pass
the wide cell's debug assertions (the generic cell checks nothing itself). -/
def op_legal : AtomicOp → Bool
  | AtomicOp.load o => wide_load_assert o
  | AtomicOp.cas _ _ so fo => wide_cas_assert so fo

/-- Run a sequence of operations against the generic cell, collecting the
observable outcomes and the final cell. -/
def run_generic (cell : atomic_impl Int64Pair) :
    List AtomicOp → Option (List AtomicOpResult × atomic_impl Int64Pair)
  | [] => some ([], cell)
  | AtomicOp.load o :: ops =>
    match atomic_impl.load cell o with
    | none => none
    | some v =>
      match run_generic cell ops with
      | none => none
      | some (rs, c2) => some (AtomicOpResult.loaded v :: rs, c2)
  | AtomicOp.cas e d so fo :: ops =>
    let r := atomic_impl.compare_exchange_weak cell e d so fo
    match run_generic r.2.2 ops with
    | none => none
    | some (rs, c2) => some (AtomicOpResult.exchanged r.1 r.2.1 :: rs, c2)

/-- Run a sequence of operations against the wide cell; `none` as soon as an
assertion fires. -/
def run_wide (hasMsvcArmAtomics : Bool) (cell : atomic_impl_wide) :
    List AtomicOp → Option (List AtomicOpResult × atomic_impl_wide)
  | [] => some ([], cell)
  | AtomicOp.load o :: ops =>
    match atomic_impl_wide.load hasMsvcArmAtomics cell o with
    | none => none
    | some (v, cell1) =>
      match run_wide hasMsvcArmAtomics cell1 ops with
      | none => none
      | some (rs, c2) => some (AtomicOpResult.loaded v :: rs, c2)
  | AtomicOp.cas e d so fo :: ops =>
    match atomic_impl_wide.compare_exchange_weak hasMsvcArmAtomics cell e d so fo with
    | none => none
    | some (ok, e1, cell1) =>
      match run_wide hasMsvcArmAtomics cell1 ops with
      | none => none
      | some (rs, c2) => some (AtomicOpResult.exchanged ok e1 :: rs, c2)

/-- All four instruction variants have the same value-level semantics; they
differ only in emitted fences. -/
theorem run_cas_variant_eq (v : CasVariant) :
    run_cas_variant v = InterlockedCompareExchange128 := by
  cases v <;> rfl

/-- A wide load that passes the assertion returns the current contents and
leaves the cell unchanged, for every cell value (sentinel hit or miss). -/
theorem wide_load_eq (hasArm : Bool) (cell : atomic_impl_wide)
    (order : memory_order) (h : wide_load_assert order = true) :
    atomic_impl_wide.load hasArm cell order = some (cell.atomicValue, cell) := by
  obtain ⟨av⟩ := cell
  unfold atomic_impl_wide.load
  rw [if_pos h]
  unfold InterlockedCompareExchange128_nf InterlockedCompareExchange128
  by_cases hz : av = (⟨0, 0⟩ : Int64Pair) <;>
    split <;> simp [hz]

/-- A wide compare-exchange that passes the assertions produces exactly the
generic cell's results on the same state. -/
theorem wide_cas_eq_generic (hasArm : Bool) (v e d : Int64Pair)
    (so fo : memory_order) (h : wide_cas_assert so fo = true) :
    atomic_impl_wide.compare_exchange_weak hasArm ⟨v⟩ e d so fo =
      some ((atomic_impl.compare_exchange_weak (⟨v⟩ : atomic_impl Int64Pair) e d so fo).1,
            (atomic_impl.compare_exchange_weak (⟨v⟩ : atomic_impl Int64Pair) e d so fo).2.1,
            ⟨(atomic_impl.compare_exchange_weak (⟨v⟩ : atomic_impl Int64Pair) e d so fo).2.2.value⟩) := by
  unfold atomic_impl_wide.compare_exchange_weak atomic_impl.compare_exchange_weak
  rw [if_pos h, run_cas_variant_eq]
  unfold InterlockedCompareExchange128
  by_cases hv : v = e <;> simp [hv]

/-- Characterization of the wide compare-exchange assertion predicate,
proved once and shared. -/
theorem wide_cas_assert_iff (so fo : memory_order) :
    wide_cas_assert so fo = true ↔
      ((fo = memory_order.relaxed ∨ fo = memory_order.acquire ∨
          fo = memory_order.consume)
        ∧ (so = memory_order.relaxed ∨ so = memory_order.release)) := by
  revert so fo; decide

/-- Claim C1: on either cell holding a current value distinct from
`expected`, `compare_exchange_weak` returns failure, writes the cell's
actual current value into `expected_in_out`, leaves the stored value
unchanged, and a subsequent `load` returns that value. -/
theorem failed_cas_leaves_cell_unchanged
    {Value : Type} [DecidableEq Value]
    (g : atomic_impl Value) (expected desired : Value)
    (w : atomic_impl_wide) (wexpected wdesired : Int64Pair)
    (so fo lord : memory_order) (hasArm : Bool)
    (hg : g.value ≠ expected) (hw : w.atomicValue ≠ wexpected)
    (hcas : wide_cas_assert so fo = true)
    (hload : wide_load_assert lord = true) :
    (atomic_impl.compare_exchange_weak g expected desired so fo
        = (false, g.value, g)
      ∧ atomic_impl.load g lord = some g.value)
    ∧ (atomic_impl_wide.compare_exchange_weak hasArm w wexpected wdesired so fo
        = some (false, w.atomicValue, w)
      ∧ atomic_impl_wide.load hasArm w lord = some (w.atomicValue, w)) := by
  refine ⟨⟨?_, rfl⟩, ⟨?_, wide_load_eq hasArm w lord hload⟩⟩
  · simp [atomic_impl.compare_exchange_weak, hg]
  · obtain ⟨av⟩ := w
    rw [wide_cas_eq_generic hasArm av wexpected wdesired so fo hcas]
    simp_all [atomic_impl.compare_exchange_weak]

/-- Witness for C1 at the spec's concrete inputs: cell value 7,
`compare_exchange_weak(expected = 3, desired = 9)`. -/
theorem failed_cas_leaves_cell_unchanged_witness :
    ((7 : Nat) ≠ 3 ∧ (⟨7, 0⟩ : Int64Pair) ≠ ⟨3, 0⟩)
    ∧ ((atomic_impl.compare_exchange_weak (⟨7⟩ : atomic_impl Nat) 3 9
          memory_order.relaxed memory_order.relaxed = (false, 7, ⟨7⟩)
        ∧ atomic_impl.load (⟨7⟩ : atomic_impl Nat) memory_order.relaxed = some 7)
      ∧ (atomic_impl_wide.compare_exchange_weak false ⟨⟨7, 0⟩⟩ ⟨3, 0⟩ ⟨9, 0⟩
          memory_order.relaxed memory_order.relaxed
            = some (false, ⟨7, 0⟩, ⟨⟨7, 0⟩⟩)
        ∧ atomic_impl_wide.load false ⟨⟨7, 0⟩⟩ memory_order.relaxed
            = some (⟨7, 0⟩, ⟨⟨7, 0⟩⟩))) :=
  ⟨⟨by decide, by decide⟩,
    failed_cas_leaves_cell_unchanged ⟨7⟩ 3 9 ⟨⟨7, 0⟩⟩ ⟨3, 0⟩ ⟨9, 0⟩
      memory_order.relaxed memory_order.relaxed memory_order.relaxed false
      (by decide) (by decide) (by decide) (by decide)⟩

/-- Claim C2: for every legal ordering pair, the wide compare-exchange
selects the weakest instruction variant satisfying both orderings — no-fence
when the success side is relaxed and the failure side does not need acquire,
acquire-fenced when the success side is relaxed and the failure side is
acquire, release-fenced when the success side is release and the failure
side does not need acquire, fully-fenced otherwise — and without the
ARM-specific intrinsics every case degrades to the fully-fenced variant. -/
theorem wide_cas_variant_selection :
    ∀ so fo : memory_order, wide_cas_assert so fo = true →
      ((so = memory_order.relaxed ∧ fo ≠ memory_order.acquire →
          wide_cas_variant true so fo = CasVariant.nf)
        ∧ (so = memory_order.relaxed ∧ fo = memory_order.acquire →
          wide_cas_variant true so fo = CasVariant.acq)
        ∧ (so = memory_order.release ∧ fo ≠ memory_order.acquire →
          wide_cas_variant true so fo = CasVariant.rel)
        ∧ (so = memory_order.release ∧ fo = memory_order.acquire →
          wide_cas_variant true so fo = CasVariant.full))
      ∧ wide_cas_variant false so fo = CasVariant.full := by
  decide

/-- Witness for C2: a concrete legal pair, release success with relaxed
failure, selects the release-fenced variant. -/
theorem wide_cas_variant_selection_witness :
    wide_cas_assert memory_order.release memory_order.relaxed = true
    ∧ wide_cas_variant true memory_order.release memory_order.relaxed
        = CasVariant.rel :=
  ⟨by decide,
    ((wide_cas_variant_selection memory_order.release memory_order.relaxed
        (by decide)).1.2.2.1 ⟨rfl, by decide⟩)⟩

/-- Claim C3: the wide `compare_exchange_weak` returns normally exactly when
`failure_order ∈ {relaxed, acquire, consume}` and `success_order ∈ {relaxed,
release}`, and in particular every call with `success_order = acquire` fires
the assertion. -/
theorem wide_cas_ordering_validation :
    (∀ (hasArm : Bool) (cell : atomic_impl_wide) (o n : Int64Pair)
        (so fo : memory_order),
      (atomic_impl_wide.compare_exchange_weak hasArm cell o n so fo).isSome = true ↔
        ((fo = memory_order.relaxed ∨ fo = memory_order.acquire ∨
            fo = memory_order.consume)
          ∧ (so = memory_order.relaxed ∨ so = memory_order.release)))
    ∧ (∀ (hasArm : Bool) (cell : atomic_impl_wide) (o n : Int64Pair)
        (fo : memory_order),
      atomic_impl_wide.compare_exchange_weak hasArm cell o n
        memory_order.acquire fo = none) := by
  constructor
  · intro hasArm cell o n so fo
    rw [← wide_cas_assert_iff so fo]
    unfold atomic_impl_wide.compare_exchange_weak
    by_cases h : wide_cas_assert so fo = true
    · rw [if_pos h]; simpa using h
    · rw [if_neg h]; simpa using h
  · intro hasArm cell o n fo
    unfold atomic_impl_wide.compare_exchange_weak
    rw [if_neg]
    cases fo <;> decide

/-- Claim C4: for every accepted ordering, the wide `load` — implemented as
a compare-and-swap against the zero sentinel — returns the cell's current
stored contents for every cell value, i.e. whether the internal sentinel
comparison succeeds (contents equal zero) or fails (any other contents). -/
theorem wide_load_returns_current_contents
    (hasArm : Bool) (cell : atomic_impl_wide) (order : memory_order)
    (h : order = memory_order.relaxed ∨ order = memory_order.acquire ∨
      order = memory_order.consume) :
    (atomic_impl_wide.load hasArm cell order).map Prod.fst
      = some cell.atomicValue := by
  have ha : wide_load_assert order = true := by
    rcases h with h | h | h <;> subst h <;> decide
  rw [wide_load_eq hasArm cell order ha]
  rfl

/-- Witness for C4: loading a nonzero cell (sentinel comparison fails) with
acquire ordering returns its contents. -/
theorem wide_load_returns_current_contents_witness :
    (memory_order.acquire = memory_order.relaxed ∨
      memory_order.acquire = memory_order.acquire ∨
      memory_order.acquire = memory_order.consume)
    ∧ (atomic_impl_wide.load true ⟨⟨7, 0⟩⟩ memory_order.acquire).map Prod.fst
        = some ⟨7, 0⟩ :=
  ⟨Or.inr (Or.inl rfl),
    wide_load_returns_current_contents true ⟨⟨7, 0⟩⟩ memory_order.acquire
      (Or.inr (Or.inl rfl))⟩

/-- Counterexample to claim C5: the generic cell's `load` contains no
assertion at all — `return value.load(order);` — so in this code a debug
build returns normally from a generic load called with `release` or
`acq_rel` instead of firing an assertion. -/
theorem generic_load_release_returns_normally :
    atomic_impl.load (⟨7⟩ : atomic_impl Nat) memory_order.release = some 7
    ∧ atomic_impl.load (⟨7⟩ : atomic_impl Nat) memory_order.acq_rel = some 7 :=
  ⟨rfl, rfl⟩

/-- Claim C5 as amended: only the wide cell's `load` guards its ordering
with a debug assertion — calling it with `release` or `acq_rel` fires the
assertion — while the generic cell's `load` forwards any ordering to
`std::atomic::load` unchecked and returns normally (such a call is undefined
behavior by the C++ standard, not a checked contract violation here). -/
theorem load_invalid_order_assertion
    {Value : Type} (order : memory_order) (w : atomic_impl_wide)
    (g : atomic_impl Value) (hasArm : Bool)
    (h : order = memory_order.release ∨ order = memory_order.acq_rel) :
    atomic_impl_wide.load hasArm w order = none
    ∧ (atomic_impl.load g order).isSome = true := by
  rcases h with h | h <;> subst h <;>
    exact ⟨by simp [atomic_impl_wide.load, wide_load_assert], rfl⟩

/-- Witness for the amended C5, at `order = release`. -/
theorem load_invalid_order_assertion_witness :
    (memory_order.release = memory_order.release ∨
      memory_order.release = memory_order.acq_rel)
    ∧ (atomic_impl_wide.load false ⟨⟨7, 0⟩⟩ memory_order.release = none
      ∧ (atomic_impl.load (⟨7⟩ : atomic_impl Nat) memory_order.release).isSome
          = true) :=
  ⟨Or.inl rfl,
    load_invalid_order_assertion memory_order.release ⟨⟨7, 0⟩⟩ ⟨7⟩ false
      (Or.inl rfl)⟩

/-- Claim C6: for every deterministic single-threaded sequence of operations
whose orderings are legal for both strategies, the wide cell never asserts
and produces exactly the generic cell's results — the same success/failure
flags, the same values written back into `expected_in_out`, the same loaded
values, and the same final stored value. -/
theorem generic_wide_equivalence (ops : List AtomicOp) (hasArm : Bool)
    (v : Int64Pair) (h : ∀ op ∈ ops, op_legal op = true) :
    run_wide hasArm ⟨v⟩ ops =
      (run_generic ⟨v⟩ ops).map (fun r => (r.1, ⟨r.2.value⟩)) := by
  revert h
  induction ops generalizing v with
  | nil => intro h; rfl
  | cons op ops ih =>
    intro h
    have hop : op_legal op = true := h op (List.mem_cons_self op ops)
    have hrest : ∀ o ∈ ops, op_legal o = true :=
      fun o hm => h o (List.mem_cons_of_mem op hm)
    cases op with
    | load o =>
      have hl : wide_load_assert o = true := hop
      simp only [run_wide, run_generic, wide_load_eq hasArm ⟨v⟩ o hl,
        atomic_impl.load, ih v hrest]
      cases run_generic ⟨v⟩ ops <;> rfl
    | cas e d so fo =>
      have hc : wide_cas_assert so fo = true := hop
      simp only [run_wide, run_generic, wide_cas_eq_generic hasArm v e d so fo hc]
      rw [ih ((atomic_impl.compare_exchange_weak (⟨v⟩ : atomic_impl Int64Pair)
        e d so fo)).2.2.value hrest]
      cases run_generic (atomic_impl.compare_exchange_weak
        (⟨v⟩ : atomic_impl Int64Pair) e d so fo).2.2 ops <;> rfl

/-- Witness for C6: a concrete legal three-operation trace — a successful
exchange, a load, then a failed exchange — evaluated on both strategies. -/
theorem generic_wide_equivalence_witness :
    (∀ op ∈ [AtomicOp.cas ⟨0, 0⟩ ⟨42, 0⟩ memory_order.release memory_order.relaxed,
        AtomicOp.load memory_order.acquire,
        AtomicOp.cas ⟨3, 0⟩ ⟨9, 0⟩ memory_order.relaxed memory_order.consume],
      op_legal op = true)
    ∧ run_wide true ⟨⟨0, 0⟩⟩
        [AtomicOp.cas ⟨0, 0⟩ ⟨42, 0⟩ memory_order.release memory_order.relaxed,
          AtomicOp.load memory_order.acquire,
          AtomicOp.cas ⟨3, 0⟩ ⟨9, 0⟩ memory_order.relaxed memory_order.consume] =
      (run_generic ⟨⟨0, 0⟩⟩
        [AtomicOp.cas ⟨0, 0⟩ ⟨42, 0⟩ memory_order.release memory_order.relaxed,
          AtomicOp.load memory_order.acquire,
          AtomicOp.cas ⟨3, 0⟩ ⟨9, 0⟩ memory_order.relaxed memory_order.consume]).map
        (fun r => (r.1, ⟨r.2.value⟩)) :=
  ⟨by decide,
    generic_wide_equivalence
      [AtomicOp.cas ⟨0, 0⟩ ⟨42, 0⟩ memory_order.release memory_order.relaxed,
        AtomicOp.load memory_order.acquire,
        AtomicOp.cas ⟨3, 0⟩ ⟨9, 0⟩ memory_order.relaxed memory_order.consume]
      true ⟨0, 0⟩ (by decide)⟩

/-- Claim C7: on either cell constructed with 0, a
`compare_exchange_weak(0, 42, release, relaxed)` reports success and a
subsequent `load(acquire)` returns 42. -/
theorem load_reflects_last_successful_store :
    ((atomic_impl.compare_exchange_weak (⟨0⟩ : atomic_impl Nat) 0 42
        memory_order.release memory_order.relaxed).1 = true
      ∧ atomic_impl.load
          (atomic_impl.compare_exchange_weak (⟨0⟩ : atomic_impl Nat) 0 42
            memory_order.release memory_order.relaxed).2.2
          memory_order.acquire = some 42)
    ∧ (∀ hasArm : Bool,
        atomic_impl_wide.compare_exchange_weak hasArm ⟨⟨0, 0⟩⟩ ⟨0, 0⟩ ⟨42, 0⟩
          memory_order.release memory_order.relaxed
          = some (true, ⟨0, 0⟩, ⟨⟨42, 0⟩⟩)
      ∧ atomic_impl_wide.load hasArm ⟨⟨42, 0⟩⟩ memory_order.acquire
          = some (⟨42, 0⟩, ⟨⟨42, 0⟩⟩)) := by
  refine ⟨⟨rfl, rfl⟩, ?_⟩
  intro hasArm
  cases hasArm <;> exact ⟨by decide, by decide⟩

/-- Claim C9: both cell types statically reject copy-construction and
copy-assignment — the wide specialization by its explicit `= delete`
declarations, the generic cell because its `std::atomic` member is
non-copyable, which defines its implicit copy operations as deleted. -/
theorem atomic_cells_not_copyable :
    atomic_impl_copy_control.copyable = false
    ∧ atomic_impl_wide_copy_control.copyable = false := by
  decide

/-- Claim C10: a wide `load` has no observable write effect on the cell for
any current value: the sentinel comparison reports success exactly when the
contents are zero (and then stores back the same zero), and in every case
the cell after the load equals the cell before. -/
theorem wide_load_no_write
    (hasArm : Bool) (cell : atomic_impl_wide) (order : memory_order)
    (h : wide_load_assert order = true) :
    ((InterlockedCompareExchange128 cell.atomicValue 0 0 ⟨0, 0⟩).1
        = decide (cell.atomicValue = ⟨0, 0⟩))
    ∧ (atomic_impl_wide.load hasArm cell order).map Prod.snd = some cell := by
  constructor
  · unfold InterlockedCompareExchange128
    by_cases hz : cell.atomicValue = (⟨0, 0⟩ : Int64Pair) <;> simp [hz]
  · rw [wide_load_eq hasArm cell order h]
    rfl

/-- Witness for C10: one zero-valued cell (sentinel comparison succeeds) and
one nonzero cell (it fails); neither load changes the cell. -/
theorem wide_load_no_write_witness :
    wide_load_assert memory_order.relaxed = true
    ∧ ((InterlockedCompareExchange128 (⟨0, 0⟩ : Int64Pair) 0 0 ⟨0, 0⟩).1
          = decide ((⟨0, 0⟩ : Int64Pair) = ⟨0, 0⟩)
      ∧ (atomic_impl_wide.load true ⟨⟨0, 0⟩⟩ memory_order.relaxed).map Prod.snd
          = some ⟨⟨0, 0⟩⟩)
    ∧ ((InterlockedCompareExchange128 (⟨7, 0⟩ : Int64Pair) 0 0 ⟨0, 0⟩).1
          = decide ((⟨7, 0⟩ : Int64Pair) = ⟨0, 0⟩)
      ∧ (atomic_impl_wide.load true ⟨⟨7, 0⟩⟩ memory_order.relaxed).map Prod.snd
          = some ⟨⟨7, 0⟩⟩) :=
  ⟨by decide,
    wide_load_no_write true ⟨⟨0, 0⟩⟩ memory_order.relaxed (by decide),
    wide_load_no_write true ⟨⟨7, 0⟩⟩ memory_order.relaxed (by decide)⟩

end Swift
